import Mathlib

/-!
Verification of the PPChat room-scoped message relay.

Server-relayed mode is embedded from `src/server.ts`: the in-memory room
table, the cleanup sweep, and the `join-room` / `leave-room` / `send-message`
socket handlers.  Peer-mediated mode is embedded from the PeerJS clients
(`src/src/App.tsx` and its unnamed near-duplicates): `processFileMessage`,
`addMessage`, `broadcast`, `handleReceivedData`, and the guest's
self-introduction send on connection open.  Connections are identified by
their transport-level identifiers (socket id, `conn.peer`).
-/

namespace PPChat

/-! ## Server-relayed mode (src/server.ts) -/

/-- The `file` field of a server-mode `Message`: `{ name, type, data }`,
`data` a base64 string. -/
structure FileData where
  name : String
  type : String
  data : String
deriving Repr, DecidableEq

/-- Server-mode `Message` from `server.ts`: `id`, `sender: string | null`,
optional `text`, optional `file`, `timestamp` in epoch milliseconds. -/
structure Message where
  id : String
  sender : Option String
  text : Option String
  file : Option FileData
  timestamp : Nat
deriving Repr, DecidableEq

/-- The payload of a `send-message` event: `Omit<Message, "id" | "timestamp">`. -/
structure MessageInput where
  sender : Option String
  text : Option String
  file : Option FileData
deriving Repr, DecidableEq

/-- `MESSAGE_TTL = 10 * 60 * 1000` (10 minutes). -/
def MESSAGE_TTL : Nat := 10 * 60 * 1000

/-- `CLEANUP_INTERVAL = 60 * 1000` (1 minute), the period of the
`setInterval` retention sweep. -/
def CLEANUP_INTERVAL : Nat := 60 * 1000

/-- Server process state: the module-level `rooms` record (room name to
`{ messages }`; `none` models an absent key) together with the socket.io
room membership maintained by `socket.join` / `socket.leave`. -/
structure ServerState where
  rooms : String → Option (List Message)
  members : String → List String

/-- An event emitted to one socket: `room-history` or `new-message`. -/
inductive SEvent where
  | roomHistory : List Message → SEvent
  | newMessage : Message → SEvent
deriving Repr, DecidableEq

/-- Stamping in the `send-message` handler:
`{ ...message, id: <fresh>, timestamp: Date.now() }`.  The fresh id
(`Math.random().toString(36).substring(2, 9)`) and the clock reading are
passed in as parameters. -/
def stamp (input : MessageInput) (freshId : String) (now : Nat) : Message :=
  { id := freshId
    sender := input.sender
    text := input.text
    file := input.file
    timestamp := now }

/-- The `join-room` handler: `socket.join(roomName)`, create the room record
if absent, then `socket.emit("room-history", rooms[roomName].messages)` to
the joining socket only.  Returns the new state and the list of
(recipient socket, event) deliveries. -/
def joinRoom (st : ServerState) (sock roomName : String) :
    ServerState × List (String × SEvent) :=
  let members1 := fun n =>
    if n = roomName then
      (if sock ∈ st.members roomName then st.members roomName
       else st.members roomName ++ [sock])
    else st.members n
  let rooms1 :=
    match st.rooms roomName with
    | some _ => st.rooms
    | none => fun n => if n = roomName then some [] else st.rooms n
  ({ rooms := rooms1, members := members1 },
   [(sock, SEvent.roomHistory ((rooms1 roomName).getD []))])

/-- The `leave-room` handler: `socket.leave(roomName)`. -/
def leaveRoom (st : ServerState) (sock roomName : String) : ServerState :=
  { st with
    members := fun n =>
      if n = roomName then (st.members roomName).filter (fun s => s ≠ sock)
      else st.members n }

/-- The `send-message` handler: stamp the inbound message, create the room
record if absent, push the stamped message, then
`io.to(roomName).emit("new-message", fullMessage)` — a delivery to every
socket currently in the socket.io room. -/
def sendMessage (st : ServerState) (roomName : String) (input : MessageInput)
    (freshId : String) (now : Nat) : ServerState × List (String × SEvent) :=
  let fullMessage := stamp input freshId now
  let rooms0 :=
    match st.rooms roomName with
    | some _ => st.rooms
    | none => fun n => if n = roomName then some [] else st.rooms n
  let rooms1 := fun n =>
    if n = roomName then some ((rooms0 roomName).getD [] ++ [fullMessage])
    else rooms0 n
  ({ st with rooms := rooms1 },
   (st.members roomName).map (fun s => (s, SEvent.newMessage fullMessage)))

/-- The body of the `setInterval` cleanup sweep: for every room,
`messages = messages.filter(msg => now - msg.timestamp < MESSAGE_TTL)`;
the room record itself is kept (the `delete` is commented out in the
source). -/
def evictExpired (now : Nat) (rooms : String → Option (List Message)) :
    String → Option (List Message) :=
  fun n =>
    (rooms n).map (fun msgs =>
      msgs.filter (fun msg => now - msg.timestamp < MESSAGE_TTL))

/-- One server-side event-loop callback: a socket handler invocation or a
sweep tick, each observing one `Date.now()` reading. -/
inductive ServerOp where
  | join (sock room : String)
  | leave (sock room : String)
  | send (room : String) (input : MessageInput) (freshId : String)
  | sweep
deriving Repr

/-- Dispatch one callback at clock reading `now`. -/
def stepServer (st : ServerState) (now : Nat) (op : ServerOp) : ServerState :=
  match op with
  | .join sock room => (joinRoom st sock room).1
  | .leave sock room => leaveRoom st sock room
  | .send room input freshId => (sendMessage st room input freshId now).1
  | .sweep => { st with rooms := evictExpired now st.rooms }

/-- The state at process start: empty room table, empty membership. -/
def initialState : ServerState :=
  { rooms := fun _ => none, members := fun _ => [] }

/-- Run a sequence of callbacks, each paired with its `Date.now()` reading. -/
def runServer (st : ServerState) (trace : List (Nat × ServerOp)) : ServerState :=
  match trace with
  | [] => st
  | (now, op) :: rest => runServer (stepServer st now op) rest

/-! ## Peer-mediated mode (the PeerJS clients) -/

/-- The `file` field of a peer-mode `Message`.  The `data` payload is
`any` in the source and opaque to the relay; it is modelled as an optional
string, `none` standing for an absent/falsy payload. -/
structure PFile where
  name : String
  type : String
  data : Option String
  size : Option Nat
  previewUrl : Option String
  folderPath : Option String
deriving Repr, DecidableEq

/-- Peer-mode `Message`: `id`, `sender`, `senderId`, optional `text`,
optional `file`, `timestamp`, and the system-message markers
`type?: "system"` / `systemType?`. -/
structure PMessage where
  id : String
  sender : String
  senderId : String
  text : Option String
  file : Option PFile
  timestamp : Nat
  type : Option String
  systemType : Option String
deriving Repr, DecidableEq

/-- `processFileMessage`: when the message carries a file with a (truthy)
payload and no `previewUrl` yet, generate a preview URL locally from the
payload.  The composite `createBlob` + `URL.createObjectURL` is the
parameter `genUrl` (returning `none` when `createBlob` returns `null`). -/
def processFileMessage (genUrl : String → String → Option String)
    (msg : PMessage) : PMessage :=
  match msg.file with
  | some f =>
    match f.data, f.previewUrl with
    | some d, none => { msg with file := some { f with previewUrl := genUrl d f.type } }
    | _, _ => msg
  | none => msg

/-- `addMessage`: process the message, then append it unless a message with
the same `id` is already in the list
(`prev.find(m => m.id === processedMsg.id) ? prev : [...prev, processedMsg]`). -/
def addMessage (genUrl : String → String → Option String)
    (prev : List PMessage) (msg : PMessage) : List PMessage :=
  let processedMsg := processFileMessage genUrl msg
  if prev.any (fun m => m.id == processedMsg.id) then prev
  else prev ++ [processedMsg]

/-- `broadcast(msg, excludeConns)`: send `msg` on every connection whose
peer id is not excluded.  Connections are modelled by their `conn.peer`
identifiers; the result lists the (recipient, message) sends in order. -/
def broadcast (connections : List String) (msg : PMessage)
    (excludeConns : List String) : List (String × PMessage) :=
  (connections.filter (fun conn => !(excludeConns.any (fun e => e == conn)))).map
    (fun conn => (conn, msg))

/-- `handleReceivedData(data, fromConn)`: clear the wire `previewUrl`
(`{ ...msg, file: msg.file ? { ...msg.file, previewUrl: undefined } : undefined }`),
add the cleaned message locally, and — only when this client is the host —
re-broadcast the original message to every connection except `fromConn`.
Returns the new local message list and the outgoing sends. -/
def handleReceivedData (genUrl : String → String → Option String)
    (isHost : Bool) (connections : List String) (messages : List PMessage)
    (data : PMessage) (fromConn : String) :
    List PMessage × List (String × PMessage) :=
  let cleanMsg :=
    { data with file := data.file.map (fun f => { f with previewUrl := none }) }
  (addMessage genUrl messages cleanMsg,
   if isHost then broadcast connections data [fromConn] else [])

/-- The system message a guest sends to the host when its data connection
opens: `{ id: "sys-join-" + now, sender, senderId, text: name + " syncronised",
timestamp: now, type: "system" }` with `name = username.trim() || "Anonymous"`. -/
def guestJoinIntro (username myId : String) (now : Nat) : PMessage :=
  let name := if username.trim = "" then "Anonymous" else username.trim
  { id := "sys-join-" ++ toString now
    sender := name
    senderId := myId
    text := some (name ++ " syncronised")
    file := none
    timestamp := now
    type := some "system"
    systemType := none }

/-- A concrete local URL generator standing for
`createBlob` + `URL.createObjectURL` in witnesses. -/
def sampleGenUrl : String → String → Option String :=
  fun d t => some ("local:" ++ d ++ t)

/-- A concrete incoming file attachment carrying a foreign wire
`previewUrl`, used in witnesses. -/
def sampleIncomingFile : PFile :=
  { name := "pic.png", type := "image/png", data := some "payload",
    size := some 3, previewUrl := some "blob:other-device", folderPath := none }

/-- A concrete incoming file message wrapping `sampleIncomingFile`. -/
def sampleIncomingMsg : PMessage :=
  { id := "f1", sender := "A", senderId := "a1", text := none,
    file := some sampleIncomingFile, timestamp := 9, type := none,
    systemType := none }

/-- A message stamped at t = 0, used in concrete sweep scenarios. -/
def oldMsg : Message :=
  { id := "a", sender := some "A", text := some "old", file := none,
    timestamp := 0 }

/-- A message stamped at t = 540000 (9 minutes), used in concrete sweep
scenarios. -/
def recentMsg : Message :=
  { id := "b", sender := some "A", text := some "recent", file := none,
    timestamp := 540000 }

/-- A one-room table holding `oldMsg` and `recentMsg` in room "x". -/
def sampleRooms : String → Option (List Message) :=
  fun n => if n = "x" then some [oldMsg, recentMsg] else none

/-- A concrete trace of server callbacks with non-decreasing clock
readings, used in witnesses. -/
def sampleTrace : List (Nat × ServerOp) :=
  [(5, ServerOp.join "A" "r"),
   (10, ServerOp.send "r" { sender := some "A", text := some "hi", file := none } "m1"),
   (20, ServerOp.send "r" { sender := some "B", text := some "yo", file := none } "m2")]

/-- The room "r" log produced by `sampleTrace`. -/
def sampleLog : List Message :=
  [{ id := "m1", sender := some "A", text := some "hi", file := none,
     timestamp := 10 },
   { id := "m2", sender := some "B", text := some "yo", file := none,
     timestamp := 20 }]

/-- Invariant carried through a server run: every present room's log has
non-decreasing timestamps and all of them are at most the clock bound `c`. -/
def RoomsBounded (c : Nat) (st : ServerState) : Prop :=
  ∀ name msgs, st.rooms name = some msgs →
    msgs.Pairwise (fun a b => a.timestamp ≤ b.timestamp)
    ∧ ∀ m ∈ msgs, m.timestamp ≤ c

/-! ## Helper lemmas -/

theorem processFileMessage_id (genUrl : String → String → Option String)
    (msg : PMessage) : (processFileMessage genUrl msg).id = msg.id := by
  obtain ⟨i, s, sid, t, file, ts, ty, sys⟩ := msg
  cases file with
  | none => rfl
  | some f =>
    obtain ⟨n, fty, d, sz, p, fp⟩ := f
    cases d <;> cases p <;> rfl

theorem processFileMessage_timestamp (genUrl : String → String → Option String)
    (msg : PMessage) : (processFileMessage genUrl msg).timestamp = msg.timestamp := by
  obtain ⟨i, s, sid, t, file, ts, ty, sys⟩ := msg
  cases file with
  | none => rfl
  | some f =>
    obtain ⟨n, fty, d, sz, p, fp⟩ := f
    cases d <;> cases p <;> rfl

theorem handleReceivedData_host_sends (genUrl : String → String → Option String)
    (connections : List String) (messages : List PMessage) (data : PMessage)
    (fromConn : String) :
    (handleReceivedData genUrl true connections messages data fromConn).2
      = broadcast connections data [fromConn] := rfl

theorem mem_broadcast (connections : List String) (msg : PMessage)
    (excludeConns : List String) (c : String) (hc : c ∈ connections)
    (hne : (!(excludeConns.any (fun e => e == c))) = true) :
    (c, msg) ∈ broadcast connections msg excludeConns := by
  simp only [broadcast, List.mem_map]
  exact ⟨c, List.mem_filter.mpr ⟨hc, hne⟩, rfl⟩

theorem not_mem_broadcast_self (connections : List String) (msg : PMessage)
    (fromConn : String) :
    fromConn ∉ ((broadcast connections msg [fromConn]).map Prod.fst) := by
  simp [broadcast, List.mem_filter]

theorem roomsBounded_mono {c c2 : Nat} {st : ServerState}
    (h : RoomsBounded c st) (hc : c ≤ c2) : RoomsBounded c2 st := by
  intro name msgs hm
  exact ⟨(h name msgs hm).1,
    fun m hmem => le_trans ((h name msgs hm).2 m hmem) hc⟩

theorem joinRoom_rooms (st : ServerState) (sock roomName n : String) :
    (joinRoom st sock roomName).1.rooms n
      = if n = roomName then some ((st.rooms roomName).getD [])
        else st.rooms n := by
  cases hr : st.rooms roomName with
  | some base => by_cases hn : n = roomName <;> simp [joinRoom, hr, hn]
  | none => by_cases hn : n = roomName <;> simp [joinRoom, hr, hn]

theorem sendMessage_rooms (st : ServerState) (roomName : String)
    (input : MessageInput) (freshId : String) (now : Nat) (n : String) :
    (sendMessage st roomName input freshId now).1.rooms n
      = if n = roomName
        then some ((st.rooms roomName).getD [] ++ [stamp input freshId now])
        else st.rooms n := by
  cases hr : st.rooms roomName with
  | some base => by_cases hn : n = roomName <;> simp [sendMessage, hr, hn]
  | none => by_cases hn : n = roomName <;> simp [sendMessage, hr, hn]

theorem stepServer_bounded {c now : Nat} {st : ServerState} (op : ServerOp)
    (hb : RoomsBounded c st) (hcn : c ≤ now) :
    RoomsBounded now (stepServer st now op) := by
  have hb2 : RoomsBounded now st := roomsBounded_mono hb hcn
  cases op with
  | join sock room =>
    intro name msgs h
    simp only [stepServer] at h
    rw [joinRoom_rooms] at h
    by_cases hn : name = room
    · rw [if_pos hn] at h
      cases hr : st.rooms room with
      | some base =>
        rw [hr] at h
        simp only [Option.getD_some, Option.some.injEq] at h
        subst h
        exact hb2 room base hr
      | none =>
        rw [hr] at h
        simp only [Option.getD_none, Option.some.injEq] at h
        subst h
        exact ⟨List.Pairwise.nil, by simp⟩
    · rw [if_neg hn] at h
      exact hb2 name msgs h
  | leave sock room =>
    intro name msgs h
    exact hb2 name msgs h
  | send room input freshId =>
    intro name msgs h
    simp only [stepServer] at h
    rw [sendMessage_rooms] at h
    by_cases hn : name = room
    · rw [if_pos hn] at h
      simp only [Option.some.injEq] at h
      subst h
      have hsorted : ((st.rooms room).getD []).Pairwise
          (fun a b => a.timestamp ≤ b.timestamp) := by
        cases hr : st.rooms room with
        | some base => rw [Option.getD_some]; exact (hb2 room base hr).1
        | none => simp
      have hbnd : ∀ m ∈ (st.rooms room).getD [], m.timestamp ≤ now := by
        cases hr : st.rooms room with
        | some base =>
          rw [Option.getD_some]
          exact (hb2 room base hr).2
        | none => simp
      constructor
      · rw [List.pairwise_append]
        refine ⟨hsorted, List.pairwise_singleton _ _, ?_⟩
        intro a ha b hbm
        rw [List.mem_singleton] at hbm
        subst hbm
        exact hbnd a ha
      · intro m hmem
        rcases List.mem_append.mp hmem with hm | hm
        · exact hbnd m hm
        · rw [List.mem_singleton] at hm
          subst hm
          exact le_refl now
    · rw [if_neg hn] at h
      exact hb2 name msgs h
  | sweep =>
    intro name msgs h
    simp only [stepServer, evictExpired] at h
    cases hr : st.rooms name with
    | none =>
      rw [hr] at h
      exact absurd h (by simp)
    | some base =>
      rw [hr] at h
      simp only [Option.map_some', Option.some.injEq] at h
      subst h
      obtain ⟨hs, hbnd⟩ := hb2 name base hr
      refine ⟨hs.sublist (List.filter_sublist base), ?_⟩
      intro m hmem
      exact hbnd m (List.mem_filter.mp hmem).1

theorem runServer_pairwise :
    ∀ (trace : List (Nat × ServerOp)) (st : ServerState) (c : Nat),
    RoomsBounded c st → List.Chain' (· ≤ ·) (c :: trace.map Prod.fst) →
    ∀ name msgs, (runServer st trace).rooms name = some msgs →
      msgs.Pairwise (fun a b => a.timestamp ≤ b.timestamp) := by
  intro trace
  induction trace with
  | nil =>
    intro st c hb _ name msgs h
    exact (hb name msgs h).1
  | cons p rest ih =>
    obtain ⟨now, op⟩ := p
    intro st c hb hch
    rw [List.map_cons, List.chain'_cons] at hch
    exact ih (stepServer st now op) now
      (stepServer_bounded op hb hch.1) hch.2

/-! ## Claim theorems -/

/-- C9: in peer-mediated mode, a non-host peer never forwards a received
message: whenever `handleReceivedData` runs with `isHost = false`, the list
of outgoing sends is empty, whatever the connections, local state, message
and source connection are. -/
theorem c9_nonhost_never_forwards (genUrl : String → String → Option String)
    (connections : List String) (messages : List PMessage)
    (data : PMessage) (fromConn : String) :
    (handleReceivedData genUrl false connections messages data fromConn).2 = [] :=
  rfl

/-- C7: the retention sweep only filters each room's message list and never
deletes the room record: pointwise, `evictExpired` maps each present room to
its filtered messages (touching no other component of the table), presence
of a room is exactly preserved, and concretely a room whose messages all
expire is still present afterwards with an empty list. -/
theorem c7_sweep_preserves_rooms :
    (∀ (now : Nat) (rooms : String → Option (List Message)) (name : String),
      evictExpired now rooms name
        = (rooms name).map
            (fun msgs => msgs.filter (fun msg => now - msg.timestamp < MESSAGE_TTL)))
    ∧ (∀ (now : Nat) (rooms : String → Option (List Message)) (name : String),
      (evictExpired now rooms name).isSome = (rooms name).isSome)
    ∧ evictExpired 600001
        (fun n => if n = "r" then
          some [{ id := "a", sender := some "A", text := some "hi", file := none,
                  timestamp := 0 }] else none) "r"
        = some [] := by
  refine ⟨fun now rooms name => rfl, fun now rooms name => ?_, by decide⟩
  cases h : rooms name <;> simp [evictExpired, h]

/-- C6: round-trip through the server store.  Stamping assigns exactly the
absent `id` and `timestamp`, passing `sender`, `text` and the file payload
through unchanged, and the `send-message` handler appends precisely the
stamped message to the room's log, so the copy read back via the room
snapshot equals the input on all fields except the assigned `id` and
`timestamp`. -/
theorem c6_roundtrip (input : MessageInput) (freshId : String) (now : Nat)
    (st : ServerState) (name : String) :
    ((stamp input freshId now).sender = input.sender
      ∧ (stamp input freshId now).text = input.text
      ∧ (stamp input freshId now).file = input.file
      ∧ (stamp input freshId now).id = freshId
      ∧ (stamp input freshId now).timestamp = now)
    ∧ (sendMessage st name input freshId now).1.rooms name
        = some ((st.rooms name).getD [] ++ [stamp input freshId now]) := by
  refine ⟨⟨rfl, rfl, rfl, rfl, rfl⟩, ?_⟩
  unfold sendMessage
  cases h : st.rooms name <;> simp [h]

/-- C4: the `join-room` handler creates the room record if absent and
replays the current snapshot to the joining socket only; in the scenario
where A joins "demo", sends "hi", and then B joins, B's single
`room-history` delivery contains exactly A's stamped message (the server
store holds no join notification at all). -/
theorem c4_join_replays_history :
    (∀ (st : ServerState) (sock name : String),
      (((joinRoom st sock name).1.rooms name).isSome = true)
      ∧ (joinRoom st sock name).2
          = [(sock, SEvent.roomHistory
              (((joinRoom st sock name).1.rooms name).getD []))])
    ∧ (joinRoom
        (sendMessage (joinRoom initialState "A" "demo").1 "demo"
          { sender := some "A", text := some "hi", file := none } "m1" 100).1
        "B" "demo").2
      = [("B", SEvent.roomHistory
          [{ id := "m1", sender := some "A", text := some "hi", file := none,
             timestamp := 100 }])] := by
  refine ⟨fun st sock name => ?_, by decide⟩
  unfold joinRoom
  cases h : st.rooms name <;> simp [h]

/-- C3: after the retention sweep at time `now`, every remaining message of
every room satisfies `now - timestamp < MESSAGE_TTL` (600000 ms), every
message whose age reaches the TTL is gone, the sweep interval constant is
one minute, and in the concrete scenario (messages stamped at 0 and 540000,
sweep at 600001) the first is evicted and the second retained. -/
theorem c3_retention_sweep :
    (∀ (now : Nat) (rooms : String → Option (List Message)) (name : String)
        (msgs : List Message), evictExpired now rooms name = some msgs →
        ∀ m ∈ msgs, now - m.timestamp < MESSAGE_TTL)
    ∧ (∀ (now : Nat) (rooms : String → Option (List Message)) (name : String)
        (msgs msgs2 : List Message) (m : Message), rooms name = some msgs →
        m ∈ msgs → MESSAGE_TTL ≤ now - m.timestamp →
        evictExpired now rooms name = some msgs2 → m ∉ msgs2)
    ∧ CLEANUP_INTERVAL = 60 * 1000
    ∧ evictExpired 600001 sampleRooms "x" = some [recentMsg] := by
  refine ⟨?_, ?_, rfl, by decide⟩
  · intro now rooms name msgs h m hm
    unfold evictExpired at h
    cases hr : rooms name with
    | none => rw [hr] at h; exact absurd h (by simp)
    | some base =>
      rw [hr] at h
      simp only [Option.map_some', Option.some.injEq] at h
      subst h
      simpa using (List.mem_filter.mp hm).2
  · intro now rooms name msgs msgs2 m hr hm hage h hmem
    unfold evictExpired at h
    rw [hr] at h
    simp only [Option.map_some', Option.some.injEq] at h
    subst h
    have := (List.mem_filter.mp hmem).2
    simp only [decide_eq_true_eq] at this
    exact absurd hage (Nat.not_le.mpr this)

/-- C3 witness: at the sweep instant 600001, the retained message stamped
at 540000 is younger than the TTL, and the message stamped at 0 (age
600001 ms, at least the TTL) is absent from the swept log. -/
theorem c3_witness :
    (600001 - recentMsg.timestamp < MESSAGE_TTL) ∧ oldMsg ∉ [recentMsg] :=
  ⟨c3_retention_sweep.1 600001 sampleRooms "x" [recentMsg] (by decide)
     recentMsg (by decide),
   c3_retention_sweep.2.1 600001 sampleRooms "x" [oldMsg, recentMsg]
     [recentMsg] oldMsg (by decide) (by decide) (by decide) (by decide)⟩

/-- C10: the stored copy of a received file message never retains the wire
`previewUrl`: the list produced by `handleReceivedData` does not depend on
the `previewUrl` that arrived, and when the message is new the stored copy
carries a preview URL regenerated locally from the file payload (`none`
when the payload is absent or blob creation fails). -/
theorem c10_preview_url_regenerated (genUrl : String → String → Option String)
    (isHost : Bool) (connections : List String) (messages : List PMessage)
    (msg : PMessage) (f : PFile) (fromConn : String)
    (hf : msg.file = some f) :
    (∀ u : Option String,
      (handleReceivedData genUrl isHost connections messages
        { msg with file := some { f with previewUrl := u } } fromConn).1
      = (handleReceivedData genUrl isHost connections messages
        { msg with file := some { f with previewUrl := none } } fromConn).1)
    ∧ (messages.any (fun m => m.id == msg.id) = false →
      (handleReceivedData genUrl isHost connections messages msg fromConn).1
      = messages ++ [{ msg with file := some { f with
          previewUrl := f.data.bind (fun d => genUrl d f.type) } }]) := by
  constructor
  · intro u; rfl
  · intro hany
    obtain ⟨i, s, sid, t, file, ts, ty, sys⟩ := msg
    replace hf : file = some f := hf
    subst hf
    obtain ⟨n, fty, d, sz, p, fp⟩ := f
    replace hany : messages.any (fun m => m.id == i) = false := hany
    cases d with
    | none =>
      simp [handleReceivedData, addMessage, processFileMessage, hany]
    | some dd =>
      simp [handleReceivedData, addMessage, processFileMessage, hany]

/-- C10 witness: a concrete received file message with a foreign wire
preview URL is stored with a locally regenerated preview URL instead. -/
theorem c10_witness :
    sampleIncomingMsg.file = some sampleIncomingFile
    ∧ (handleReceivedData sampleGenUrl true ["h2"] [] sampleIncomingMsg "g1").1
      = [] ++ [{ sampleIncomingMsg with
                 file := some { sampleIncomingFile with
                                previewUrl := sampleIncomingFile.data.bind
                                  (fun d => sampleGenUrl d sampleIncomingFile.type) } }] :=
  ⟨rfl,
   (c10_preview_url_regenerated sampleGenUrl true ["h2"] [] sampleIncomingMsg
      sampleIncomingFile "g1" rfl).2 (by decide)⟩

/-- C1 counterexample: in server mode the relay does NOT exclude the
sender.  With sockets "A" and "B" registered in room "r", a `send-message`
from "A" is delivered by `io.to(roomName).emit` to both "A" and "B" — the
sender "A" receives its own just-sent message back from the relay. -/
theorem c1_counterexample :
    (sendMessage
      { rooms := fun n => if n = "r" then some [] else none,
        members := fun n => if n = "r" then ["A", "B"] else [] }
      "r" { sender := some "A", text := some "hi", file := none } "i1" 5).2
      = [("A", SEvent.newMessage
           { id := "i1", sender := some "A", text := some "hi", file := none,
             timestamp := 5 }),
         ("B", SEvent.newMessage
           { id := "i1", sender := some "A", text := some "hi", file := none,
             timestamp := 5 })]
    ∧ "A" ∈ ((sendMessage
      { rooms := fun n => if n = "r" then some [] else none,
        members := fun n => if n = "r" then ["A", "B"] else [] }
      "r" { sender := some "A", text := some "hi", file := none } "i1" 5).2.map
        Prod.fst) := by
  exact ⟨by decide, by decide⟩

/-- C1 amended: in peer mode the host's fan-out delivers the received
message to every connection except the sender's and never back to the
sender; in server mode the `send-message` handler instead emits to every
socket registered in the room, the sender included (the sending client
relies on this echo to render its own message). -/
theorem c1_relay_delivery :
    (∀ (genUrl : String → String → Option String) (connections : List String)
        (messages : List PMessage) (data : PMessage) (fromConn : String),
      fromConn ∉ ((handleReceivedData genUrl true connections messages
          data fromConn).2.map Prod.fst)
      ∧ ∀ c ∈ connections, c ≠ fromConn →
          (c, data) ∈ (handleReceivedData genUrl true connections messages
            data fromConn).2)
    ∧ (∀ (st : ServerState) (roomName : String) (input : MessageInput)
        (freshId : String) (now : Nat),
      ((sendMessage st roomName input freshId now).2.map Prod.fst)
        = st.members roomName) := by
  constructor
  · intro genUrl connections messages data fromConn
    rw [handleReceivedData_host_sends]
    constructor
    · exact not_mem_broadcast_self connections data fromConn
    · intro c hc hne
      exact mem_broadcast connections data [fromConn] c hc (by simp [Ne.symm hne])
  · intro st roomName input freshId now
    simp only [sendMessage, List.map_map]
    exact List.map_id _

/-- C1 witness: with host connections "g1" and "g2" and an inbound message
from "g1", the host's relay sends nothing back to "g1" and does deliver the
message to "g2". -/
theorem c1_witness :
    "g1" ∉ ((handleReceivedData sampleGenUrl true ["g1", "g2"] []
        sampleIncomingMsg "g1").2.map Prod.fst)
    ∧ ("g2", sampleIncomingMsg) ∈ (handleReceivedData sampleGenUrl true
        ["g1", "g2"] [] sampleIncomingMsg "g1").2 :=
  ⟨(c1_relay_delivery.1 sampleGenUrl ["g1", "g2"] [] sampleIncomingMsg "g1").1,
   (c1_relay_delivery.1 sampleGenUrl ["g1", "g2"] [] sampleIncomingMsg "g1").2
     "g2" (by decide) (by decide)⟩

/-- C2 counterexample: the server-mode store is NOT idempotent on id.  The
`send-message` handler pushes unconditionally, so when the generated id
collides with one already in the log the room snapshot holds two messages
with that id — not exactly one copy. -/
theorem c2_counterexample :
    ((sendMessage
      { rooms := fun n =>
          if n = "r" then
            some [{ id := "x", sender := some "A", text := some "hi",
                    file := none, timestamp := 1 }]
          else none,
        members := fun _ => [] }
      "r" { sender := some "A", text := some "hi", file := none }
      "x" 7).1.rooms "r").getD []
      = [{ id := "x", sender := some "A", text := some "hi", file := none,
           timestamp := 1 },
         { id := "x", sender := some "A", text := some "hi", file := none,
           timestamp := 7 }]
    ∧ (((sendMessage
      { rooms := fun n =>
          if n = "r" then
            some [{ id := "x", sender := some "A", text := some "hi",
                    file := none, timestamp := 1 }]
          else none,
        members := fun _ => [] }
      "r" { sender := some "A", text := some "hi", file := none }
      "x" 7).1.rooms "r").getD []).countP (fun m => m.id == "x") = 2 := by
  exact ⟨by decide, by decide⟩

/-- C2 amended: the peer-mode `addMessage` is idempotent on id — adding a
message whose id already occurs in the list is a no-op, and adding a fresh
message twice leaves exactly one entry with its id.  The server-mode store
has no such dedup (see the counterexample); it relies on fresh random id
assignment instead. -/
theorem c2_addMessage_idempotent (genUrl : String → String → Option String)
    (prev : List PMessage) (msg : PMessage) :
    ((∃ m0 ∈ prev, m0.id = msg.id) → addMessage genUrl prev msg = prev)
    ∧ (prev.countP (fun m => m.id == msg.id) = 0 →
        (addMessage genUrl (addMessage genUrl prev msg) msg).countP
          (fun m => m.id == msg.id) = 1) := by
  have pid : (processFileMessage genUrl msg).id = msg.id :=
    processFileMessage_id genUrl msg
  constructor
  · rintro ⟨m0, hm0, hid⟩
    have hany : prev.any (fun m => m.id == (processFileMessage genUrl msg).id)
        = true := by
      rw [List.any_eq_true]
      exact ⟨m0, hm0, by simp [pid, hid]⟩
    simp [addMessage, hany]
  · intro hcount
    have hnone : ∀ m ∈ prev, ¬(m.id == msg.id) = true := by
      simpa using List.countP_eq_zero.mp hcount
    have hany : prev.any (fun m => m.id == (processFileMessage genUrl msg).id)
        = false := by
      rw [List.any_eq_false]
      intro m hm
      rw [pid]
      exact hnone m hm
    have h1 : addMessage genUrl prev msg = prev ++ [processFileMessage genUrl msg] := by
      simp [addMessage, hany]
    have hany2 : (prev ++ [processFileMessage genUrl msg]).any
        (fun m => m.id == (processFileMessage genUrl msg).id) = true := by
      rw [List.any_eq_true]
      exact ⟨processFileMessage genUrl msg, by simp⟩
    have h2 : addMessage genUrl (prev ++ [processFileMessage genUrl msg]) msg
        = prev ++ [processFileMessage genUrl msg] := by
      simp [addMessage, hany2]
    rw [h1, h2, List.countP_append, hcount]
    simp [List.countP_cons, pid]

/-- C2 witness: adding a concrete message twice to an empty peer-mode list
leaves exactly one entry with its id, and re-adding a message whose id is
already present is a no-op. -/
theorem c2_witness :
    (([] : List PMessage).countP (fun m => m.id == sampleIncomingMsg.id) = 0
      ∧ (addMessage sampleGenUrl (addMessage sampleGenUrl [] sampleIncomingMsg)
          sampleIncomingMsg).countP (fun m => m.id == sampleIncomingMsg.id) = 1)
    ∧ ((∃ m0 ∈ [sampleIncomingMsg], m0.id = sampleIncomingMsg.id)
      ∧ addMessage sampleGenUrl [sampleIncomingMsg] sampleIncomingMsg
          = [sampleIncomingMsg]) :=
  ⟨⟨rfl, (c2_addMessage_idempotent sampleGenUrl [] sampleIncomingMsg).2 rfl⟩,
   ⟨⟨sampleIncomingMsg, by decide, rfl⟩,
    (c2_addMessage_idempotent sampleGenUrl [sampleIncomingMsg]
      sampleIncomingMsg).1 ⟨sampleIncomingMsg, by decide, rfl⟩⟩⟩

/-- C5 counterexample: in server mode registration does NOT trigger a
"joined" system message.  With sockets "A" and "B" already in room "r",
socket "C" joining produces exactly one delivery — the history replay to
"C" — and nothing at all addressed to "A" or "B". -/
theorem c5_counterexample :
    (joinRoom
      { rooms := fun n => if n = "r" then some [] else none,
        members := fun n => if n = "r" then ["A", "B"] else [] } "C" "r").2
      = [("C", SEvent.roomHistory [])]
    ∧ ((joinRoom
      { rooms := fun n => if n = "r" then some [] else none,
        members := fun n => if n = "r" then ["A", "B"] else [] } "C" "r").2.filter
        (fun d => d.1 == "A") = []) := by
  exact ⟨by decide, by decide⟩

/-- C5 amended: in server mode the `join-room` handler emits only the
history replay, addressed to the joiner alone; in peer mode the new member
sends a self-introduction system message (`type = "system"`) to the host on
connection open, and the host's relay delivers it to every other connected
member. -/
theorem c5_join_notification :
    (∀ (st : ServerState) (sock name : String),
      (joinRoom st sock name).2.map Prod.fst = [sock])
    ∧ (∀ (username myId : String) (now : Nat),
      (guestJoinIntro username myId now).type = some "system")
    ∧ (∀ (genUrl : String → String → Option String) (connections : List String)
        (messages : List PMessage) (username myId fromConn : String) (now : Nat),
      ∀ c ∈ connections, c ≠ fromConn →
        (c, guestJoinIntro username myId now)
          ∈ (handleReceivedData genUrl true connections messages
              (guestJoinIntro username myId now) fromConn).2) := by
  refine ⟨fun st sock name => rfl, fun username myId now => rfl, ?_⟩
  intro genUrl connections messages username myId fromConn now c hc hne
  rw [handleReceivedData_host_sends]
  exact mem_broadcast connections (guestJoinIntro username myId now) [fromConn]
    c hc (by simp [Ne.symm hne])

/-- C5 witness: a concrete guest self-introduction is a system message and
is relayed by the host to the other connected member "g2" but not sourced
back to "g1". -/
theorem c5_witness :
    (joinRoom initialState "A" "demo").2.map Prod.fst = ["A"]
    ∧ (guestJoinIntro "zoe" "z1" 42).type = some "system"
    ∧ ("g2", guestJoinIntro "zoe" "z1" 42)
        ∈ (handleReceivedData sampleGenUrl true ["g1", "g2"] []
            (guestJoinIntro "zoe" "z1" 42) "g1").2 :=
  ⟨c5_join_notification.1 initialState "A" "demo",
   c5_join_notification.2.1 "zoe" "z1" 42,
   c5_join_notification.2.2 sampleGenUrl ["g1", "g2"] [] "zoe" "z1" "g1" 42
     "g2" (by decide) (by decide)⟩

/-- C8: within each room's log, timestamps are non-decreasing in append
order whenever the stamping party's clock readings are non-decreasing.  For
the server store: any run whose `Date.now()` readings are non-decreasing
leaves every room's log pairwise sorted by timestamp (appends stamp with
the current reading; the sweep's filter preserves order).  For a peer-mode
local list: `addMessage` preserves sortedness whenever the incoming stamp
is at least every stored one. -/
theorem c8_timestamps_monotone (trace : List (Nat × ServerOp))
    (hclock : List.Chain' (· ≤ ·) (trace.map Prod.fst)) :
    (∀ name msgs, (runServer initialState trace).rooms name = some msgs →
      msgs.Pairwise (fun a b => a.timestamp ≤ b.timestamp))
    ∧ (∀ (genUrl : String → String → Option String) (msgs : List PMessage)
        (msg : PMessage),
      msgs.Pairwise (fun a b => a.timestamp ≤ b.timestamp) →
      (∀ m ∈ msgs, m.timestamp ≤ msg.timestamp) →
      (addMessage genUrl msgs msg).Pairwise
        (fun a b => a.timestamp ≤ b.timestamp)) := by
  constructor
  · intro name msgs h
    refine runServer_pairwise trace initialState 0 ?_ ?_ name msgs h
    · intro name2 msgs2 h2
      exact absurd h2 (by simp [initialState])
    · rw [List.chain'_cons']
      exact ⟨fun y _ => Nat.zero_le y, hclock⟩
  · intro genUrl msgs msg hs hbnd
    unfold addMessage
    by_cases hany : msgs.any
        (fun m => m.id == (processFileMessage genUrl msg).id) = true
    · rw [if_pos hany]
      exact hs
    · rw [if_neg hany]
      rw [List.pairwise_append]
      refine ⟨hs, List.pairwise_singleton _ _, ?_⟩
      intro a ha b hbm
      rw [List.mem_singleton] at hbm
      subst hbm
      rw [processFileMessage_timestamp]
      exact hbnd a ha

/-- C8 witness: running the concrete `sampleTrace` (clock readings 5, 10,
20) leaves room "r" with a log sorted by timestamp, and a concrete
peer-mode `addMessage` preserves sortedness. -/
theorem c8_witness :
    (runServer initialState sampleTrace).rooms "r" = some sampleLog
    ∧ sampleLog.Pairwise (fun a b => a.timestamp ≤ b.timestamp)
    ∧ (addMessage sampleGenUrl [] sampleIncomingMsg).Pairwise
        (fun a b => a.timestamp ≤ b.timestamp) :=
  ⟨by decide,
   (c8_timestamps_monotone sampleTrace (by simp [sampleTrace, List.chain'_cons])).1
     "r" sampleLog (by decide),
   (c8_timestamps_monotone sampleTrace (by simp [sampleTrace, List.chain'_cons])).2
     sampleGenUrl [] sampleIncomingMsg (by simp) (by simp)⟩

end PPChat
